import Mathlib

/-!
Verification of `pytorch_lightning/metrics/regression/mean_absolute_error.py`.

The `MeanAbsoluteError` metric holds two registered state fields,
`sum_abs_error` (a float scalar, default `0.0`) and `total` (an int scalar,
default `0`).  `update(preds, target)` asserts that the two inputs have the
same shape, adds `sum(abs(preds - target))` to `sum_abs_error` and
`target.numel()` to `total`; `compute()` returns `sum_abs_error / total`.

Embedding choices: a tensor is a shape (list of dimension sizes) together
with its flat data, a list of rationals, with the invariant that the data
length is the product of the shape.  Float arithmetic is embedded in `ℚ`;
the int state field `total` is embedded in `ℤ`.  The Python `assert` that
raises before any state mutation is embedded by `update` returning
`Except`: on the error branch no new state is produced, and
`stateAfterUpdate` gives the state the caller observes after the call
(unchanged when the assertion fired).
-/

/-- A numeric tensor: a shape and flat row-major data whose length is the
product of the shape, as for `torch.Tensor`. -/
structure Tensor where
  shape : List Nat
  data : List ℚ
  shape_valid : data.length = shape.prod

/-- `torch.Tensor.numel()`: the number of elements, the product of the
dimension sizes. -/
def Tensor.numel (t : Tensor) : Nat := t.shape.prod

/-- Concatenation of two tensors into one flat tensor holding the elements
of both (as `torch.cat` on flattened inputs). -/
def Tensor.cat (a b : Tensor) : Tensor :=
  ⟨[a.data.length + b.data.length], a.data ++ b.data, by simp⟩

/-- The two registered state fields of `MeanAbsoluteError`:
`sum_abs_error` and `total`. -/
structure MAEState where
  sum_abs_error : ℚ
  total : ℤ
deriving DecidableEq

/-- The state right after construction (or after `reset()`): the defaults
given to `add_state`, `torch.tensor(0.0)` and `torch.tensor(0)`. -/
def initState : MAEState := ⟨0, 0⟩

/-- `torch.abs(preds - target)`: the elementwise absolute difference of the
flat data of the two tensors. -/
def absError (preds target : Tensor) : List ℚ :=
  List.zipWith (fun p t => |p - t|) preds.data target.data

/-- The message of the `assert` in `MeanAbsoluteError.update`. -/
def shapeMismatchMsg : String :=
  "Predictions and targets are expected to have the same shape"

/-- `MeanAbsoluteError.update`: assert equal shapes (raising before any
state mutation otherwise), then add the sum of the elementwise absolute
differences to `sum_abs_error` and `target.numel()` to `total`. -/
def update (s : MAEState) (preds target : Tensor) : Except String MAEState :=
  if preds.shape = target.shape then
    Except.ok
      { sum_abs_error := s.sum_abs_error + (absError preds target).sum
        total := s.total + (target.numel : ℤ) }
  else
    Except.error shapeMismatchMsg

/-- The state the caller observes after calling `update`: the new state on
success, the untouched old state when the assertion raised. -/
def stateAfterUpdate (s : MAEState) (preds target : Tensor) : MAEState :=
  match update s preds target with
  | Except.ok s' => s'
  | Except.error _ => s

/-- `MeanAbsoluteError.compute`: `sum_abs_error / total`, with the int
state promoted to the float domain by the division. -/
def compute (s : MAEState) : ℚ := s.sum_abs_error / (s.total : ℚ)

/-- The full effect of a `compute()` call on the object: the returned
value together with the state after the call.  The method body is a single
`return` with no assignment, so the state after the call is the state
before it. -/
def computeRun (s : MAEState) : ℚ × MAEState :=
  (s.sum_abs_error / (s.total : ℚ), s)

/-- States reachable from construction by successful `update` calls. -/
inductive Reachable : MAEState → Prop
  | init : Reachable initState
  | step (s s' : MAEState) (p t : Tensor) (hs : Reachable s)
      (h : update s p t = Except.ok s') : Reachable s'

/-! ### Helper lemmas -/

theorem sum_zipWith_abs_nonneg (l1 l2 : List ℚ) :
    0 ≤ (List.zipWith (fun p t => |p - t|) l1 l2).sum := by
  induction l1 generalizing l2 with
  | nil => simp
  | cons a l ih =>
    cases l2 with
    | nil => simp
    | cons b l2 =>
      simp only [List.zipWith_cons_cons, List.sum_cons]
      exact add_nonneg (abs_nonneg _) (ih l2)

theorem absError_sum_nonneg (p t : Tensor) : 0 ≤ (absError p t).sum :=
  sum_zipWith_abs_nonneg p.data t.data

theorem update_of_shape_eq (s : MAEState) (p t : Tensor)
    (h : p.shape = t.shape) :
    update s p t = Except.ok
      ⟨s.sum_abs_error + (absError p t).sum, s.total + (t.numel : ℤ)⟩ := by
  simp [update, h]

theorem stateAfterUpdate_of_shape_eq (s : MAEState) (p t : Tensor)
    (h : p.shape = t.shape) :
    stateAfterUpdate s p t =
      ⟨s.sum_abs_error + (absError p t).sum, s.total + (t.numel : ℤ)⟩ := by
  simp [stateAfterUpdate, update_of_shape_eq s p t h]

theorem data_length_eq_of_shape_eq (p t : Tensor) (h : p.shape = t.shape) :
    p.data.length = t.data.length := by
  rw [p.shape_valid, t.shape_valid, h]

/-! ### Concrete tensors used as witnesses -/

/-- The predictions of the doctest scenario, `[2.5, 0.0, 2.0, 8.0]`. -/
def predsEx : Tensor := ⟨[4], [5/2, 0, 2, 8], by decide⟩

/-- The targets of the doctest scenario, `[3.0, -0.5, 2.0, 7.0]`. -/
def targetEx : Tensor := ⟨[4], [3, -1/2, 2, 7], by decide⟩

/-- A second pair of tensors, shape `[2]`. -/
def predsEx2 : Tensor := ⟨[2], [1, 4], by decide⟩

/-- Targets for the second pair, shape `[2]`. -/
def targetEx2 : Tensor := ⟨[2], [3, 4], by decide⟩

/-- A tensor whose shape `[3]` differs from `[4]`. -/
def predsBad : Tensor := ⟨[3], [1, 2, 3], by decide⟩

/-- An empty tensor, shape `[0]`, zero elements. -/
def emptyT : Tensor := ⟨[0], [], by decide⟩

/-! ### Claims -/

/-- C1: for every pair of equal-shape inputs, `compute()` after exactly one
`update(preds, target)` on a freshly constructed (or freshly reset)
accumulator returns `sum(abs(preds - target)) / numel(target)`. -/
theorem mae_single_update_compute (p t : Tensor) (h : p.shape = t.shape) :
    compute (stateAfterUpdate initState p t) =
      (absError p t).sum / (t.numel : ℚ) := by
  rw [stateAfterUpdate_of_shape_eq initState p t h]
  simp [compute, initState]

theorem mae_single_update_compute_witness :
    predsEx.shape = targetEx.shape ∧
      compute (stateAfterUpdate initState predsEx targetEx) =
        (absError predsEx targetEx).sum / (targetEx.numel : ℚ) :=
  ⟨by decide, mae_single_update_compute predsEx targetEx (by decide)⟩

/-- C2: `update` on inputs of unequal shapes raises (the assertion the spec
names `ShapeMismatchError`), and the state the caller observes afterwards
is exactly the state before the call: no mutation happens before the
check. -/
theorem mae_update_shape_mismatch (s : MAEState) (p t : Tensor)
    (h : p.shape ≠ t.shape) :
    update s p t = Except.error shapeMismatchMsg ∧
      stateAfterUpdate s p t = s := by
  constructor
  · simp [update, h]
  · simp [stateAfterUpdate, update, h]

theorem mae_update_shape_mismatch_witness :
    predsBad.shape ≠ targetEx.shape ∧
      (update initState predsBad targetEx = Except.error shapeMismatchMsg ∧
        stateAfterUpdate initState predsBad targetEx = initState) :=
  ⟨by decide, mae_update_shape_mismatch initState predsBad targetEx (by decide)⟩

/-- C3: accumulation is additive: two successive `update` calls on a fresh
accumulator give the same `compute()` result as one `update` on the
concatenation of the two pairs. -/
theorem mae_update_additive (p1 t1 p2 t2 : Tensor)
    (h1 : p1.shape = t1.shape) (h2 : p2.shape = t2.shape) :
    compute (stateAfterUpdate (stateAfterUpdate initState p1 t1) p2 t2) =
      compute (stateAfterUpdate initState (p1.cat p2) (t1.cat t2)) := by
  have hl1 : p1.data.length = t1.data.length :=
    data_length_eq_of_shape_eq p1 t1 h1
  have hl2 : p2.data.length = t2.data.length :=
    data_length_eq_of_shape_eq p2 t2 h2
  have hcat : (p1.cat p2).shape = (t1.cat t2).shape := by
    simp [Tensor.cat, hl1, hl2]
  rw [stateAfterUpdate_of_shape_eq initState p1 t1 h1,
    stateAfterUpdate_of_shape_eq _ p2 t2 h2,
    stateAfterUpdate_of_shape_eq initState _ _ hcat]
  have hdata : absError (p1.cat p2) (t1.cat t2) =
      absError p1 t1 ++ absError p2 t2 := by
    simp [absError, Tensor.cat, List.zipWith_append _ _ _ _ _ hl1]
  have hnum : ((t1.cat t2).numel : ℤ) = (t1.numel : ℤ) + (t2.numel : ℤ) := by
    simp [Tensor.cat, Tensor.numel, t1.shape_valid, t2.shape_valid]
  simp [compute, initState, hdata, hnum, add_assoc]

theorem mae_update_additive_witness :
    predsEx.shape = targetEx.shape ∧ predsEx2.shape = targetEx2.shape ∧
      compute (stateAfterUpdate (stateAfterUpdate initState predsEx targetEx)
          predsEx2 targetEx2) =
        compute (stateAfterUpdate initState (predsEx.cat predsEx2)
          (targetEx.cat targetEx2)) :=
  ⟨by decide, by decide,
    mae_update_additive predsEx targetEx predsEx2 targetEx2
      (by decide) (by decide)⟩

/-- C4: across any successful `update`, both state fields are
non-decreasing, and `total` grows by exactly the element count of that
update's target input. -/
theorem mae_update_monotone (s s' : MAEState) (p t : Tensor)
    (h : update s p t = Except.ok s') :
    s.sum_abs_error ≤ s'.sum_abs_error ∧ s.total ≤ s'.total ∧
      s'.total = s.total + (t.numel : ℤ) := by
  by_cases hsh : p.shape = t.shape
  · rw [update_of_shape_eq s p t hsh] at h
    cases h
    refine ⟨le_add_of_nonneg_right (absError_sum_nonneg p t), ?_, rfl⟩
    exact le_add_of_nonneg_right (Int.ofNat_nonneg _)
  · simp [update, hsh] at h

theorem mae_update_monotone_witness :
    update initState predsEx targetEx = Except.ok
        ⟨initState.sum_abs_error + (absError predsEx targetEx).sum,
          initState.total + (targetEx.numel : ℤ)⟩ ∧
      (initState.sum_abs_error ≤
          (⟨initState.sum_abs_error + (absError predsEx targetEx).sum,
            initState.total + (targetEx.numel : ℤ)⟩ : MAEState).sum_abs_error ∧
        initState.total ≤
          (⟨initState.sum_abs_error + (absError predsEx targetEx).sum,
            initState.total + (targetEx.numel : ℤ)⟩ : MAEState).total ∧
        (⟨initState.sum_abs_error + (absError predsEx targetEx).sum,
          initState.total + (targetEx.numel : ℤ)⟩ : MAEState).total =
          initState.total + (targetEx.numel : ℤ)) :=
  ⟨update_of_shape_eq initState predsEx targetEx rfl,
    mae_update_monotone initState _ predsEx targetEx
      (update_of_shape_eq initState predsEx targetEx rfl)⟩

/-- C5: `compute()` performs the division `sum_abs_error / total`
unconditionally: when `total = 0` there is no guard and the division is
still evaluated with a zero divisor, yielding the numeric domain's
zero-division value (`0` under the `ℚ` embedding's total division, which
stands in for the runtime's zero-division behavior). -/
theorem mae_compute_unguarded_division (s : MAEState) (h : s.total = 0) :
    compute s = s.sum_abs_error / ((0 : ℤ) : ℚ) ∧ compute s = 0 := by
  constructor
  · simp [compute, h]
  · simp [compute, h]

theorem mae_compute_unguarded_division_witness :
    (⟨7, 0⟩ : MAEState).total = 0 ∧
      (compute ⟨7, 0⟩ = (⟨7, 0⟩ : MAEState).sum_abs_error / ((0 : ℤ) : ℚ) ∧
        compute ⟨7, 0⟩ = 0) :=
  ⟨by decide, mae_compute_unguarded_division ⟨7, 0⟩ (by decide)⟩

/-- C6: `compute()` is a side-effect-free, idempotent read: a call leaves
the state exactly as it was, a second call on the resulting state returns
the same value, and the returned value is `compute` of the state. -/
theorem mae_compute_pure_idempotent (s : MAEState) :
    (computeRun s).2 = s ∧
      (computeRun (computeRun s).2).1 = (computeRun s).1 ∧
      (computeRun s).1 = compute s :=
  ⟨rfl, rfl, rfl⟩

/-- C7: on a fresh accumulator, after
`update(preds=[2.5, 0.0, 2.0, 8.0], target=[3.0, -0.5, 2.0, 7.0])`,
`compute()` returns exactly `0.5`. -/
theorem mae_doctest_scenario :
    compute (stateAfterUpdate initState predsEx targetEx) = 1 / 2 := by
  rw [stateAfterUpdate_of_shape_eq initState predsEx targetEx rfl]
  have habs : (absError predsEx targetEx).sum = 2 := by
    have ha : |(1 / 2 : ℚ)| = 1 / 2 := abs_of_nonneg (by norm_num)
    simp only [absError, predsEx, targetEx, List.zipWith_cons_cons,
      List.zipWith_nil_right, List.sum_cons, List.sum_nil]
    rw [show (5 / 2 - 3 : ℚ) = -(1 / 2) by norm_num,
      show (0 - -1 / 2 : ℚ) = 1 / 2 by norm_num,
      show (2 - 2 : ℚ) = 0 by norm_num,
      show (8 - 7 : ℚ) = 1 by norm_num,
      abs_neg, ha, abs_zero, abs_one]
    norm_num
  have hnum : targetEx.numel = 4 := rfl
  simp only [compute, initState, habs, hnum]
  norm_num

/-- C8: `update` with equal-shape zero-element inputs adds `0` to
`sum_abs_error` and `0` to `total`, so it leaves the state (in particular
an Empty state) exactly unchanged. -/
theorem mae_update_empty_noop (s : MAEState) (p t : Tensor)
    (hs : p.shape = t.shape) (h0 : t.numel = 0) :
    update s p t = Except.ok s ∧ stateAfterUpdate s p t = s := by
  obtain ⟨sa, st⟩ := s
  have h0' : t.shape.prod = 0 := h0
  have hd : t.data = [] :=
    List.eq_nil_of_length_eq_zero (t.shape_valid.trans h0')
  have hupd : update ⟨sa, st⟩ p t = Except.ok ⟨sa, st⟩ := by
    rw [update_of_shape_eq _ p t hs]
    simp [absError, hd, h0]
  exact ⟨hupd, by simp [stateAfterUpdate, hupd]⟩

theorem mae_update_empty_noop_witness :
    emptyT.shape = emptyT.shape ∧ emptyT.numel = 0 ∧
      (update initState emptyT emptyT = Except.ok initState ∧
        stateAfterUpdate initState emptyT emptyT = initState) :=
  ⟨rfl, by decide,
    mae_update_empty_noop initState emptyT emptyT rfl (by decide)⟩

/-- C9: successful updates commute: performing the two equal-shape updates
in either order produces the same final state, and hence the same
`compute()` result. -/
theorem mae_update_comm (s : MAEState) (p1 t1 p2 t2 : Tensor)
    (h1 : p1.shape = t1.shape) (h2 : p2.shape = t2.shape) :
    stateAfterUpdate (stateAfterUpdate s p1 t1) p2 t2 =
        stateAfterUpdate (stateAfterUpdate s p2 t2) p1 t1 ∧
      compute (stateAfterUpdate (stateAfterUpdate s p1 t1) p2 t2) =
        compute (stateAfterUpdate (stateAfterUpdate s p2 t2) p1 t1) := by
  have key : stateAfterUpdate (stateAfterUpdate s p1 t1) p2 t2 =
      stateAfterUpdate (stateAfterUpdate s p2 t2) p1 t1 := by
    rw [stateAfterUpdate_of_shape_eq s p1 t1 h1,
      stateAfterUpdate_of_shape_eq _ p2 t2 h2,
      stateAfterUpdate_of_shape_eq s p2 t2 h2,
      stateAfterUpdate_of_shape_eq _ p1 t1 h1]
    simp only [MAEState.mk.injEq]
    exact ⟨by ring, by ring⟩
  exact ⟨key, congrArg compute key⟩

theorem mae_update_comm_witness :
    predsEx.shape = targetEx.shape ∧ predsEx2.shape = targetEx2.shape ∧
      (stateAfterUpdate (stateAfterUpdate initState predsEx targetEx)
            predsEx2 targetEx2 =
          stateAfterUpdate (stateAfterUpdate initState predsEx2 targetEx2)
            predsEx targetEx ∧
        compute (stateAfterUpdate (stateAfterUpdate initState predsEx targetEx)
            predsEx2 targetEx2) =
          compute (stateAfterUpdate (stateAfterUpdate initState predsEx2 targetEx2)
            predsEx targetEx)) :=
  ⟨by decide, by decide,
    mae_update_comm initState predsEx targetEx predsEx2 targetEx2
      (by decide) (by decide)⟩

/-- C10: in every state reachable from construction by successful updates,
`sum_abs_error` is non-negative, and `compute()` is non-negative whenever
`total > 0`. -/
theorem mae_reachable_nonneg (s : MAEState) (h : Reachable s) :
    0 ≤ s.sum_abs_error ∧ (0 < s.total → 0 ≤ compute s) := by
  induction h with
  | init =>
    refine ⟨le_refl 0, fun _ => ?_⟩
    simp [compute, initState]
  | step s s' p t hs hupd ih =>
    by_cases hsh : p.shape = t.shape
    · rw [update_of_shape_eq s p t hsh] at hupd
      cases hupd
      have hsum : 0 ≤ s.sum_abs_error + (absError p t).sum :=
        add_nonneg ih.1 (absError_sum_nonneg p t)
      refine ⟨hsum, fun hpos => ?_⟩
      have hden : (0 : ℚ) ≤ ((s.total + (t.numel : ℤ) : ℤ) : ℚ) := by
        exact_mod_cast le_of_lt hpos
      exact div_nonneg hsum hden
    · simp [update, hsh] at hupd

theorem mae_reachable_nonneg_witness :
    Reachable initState ∧
      (0 ≤ initState.sum_abs_error ∧
        (0 < initState.total → 0 ≤ compute initState)) :=
  ⟨Reachable.init, mae_reachable_nonneg initState Reachable.init⟩
